import Mathlib

/-!
Verification of the `ccd` container-launcher CLI (`src/ccd/ccd.py`).

The development shallowly embeds the pure content of the script:
logging configuration, the exit dispositions of the three engine
invocations (build / run / attach), feature-toggle resolution for the
build subcommand, container-name generation and selection, and the
idempotent filesystem preparation behind the bind-mount flags.
Stateful pieces (the filesystem, the stream of interactive input
lines, the behaviour of the spawned engine process) are passed as
explicit values.
-/

/-! ## Constants from the top of the script -/

def IMAGE_NAME : String := "claude-code"

/-- Container-side home folder, `IMAGE_HOME_FOLDER = "/home/ubuntu"`. -/
def IMAGE_HOME_FOLDER : String := "/home/ubuntu"

/-- Fixed container-name base, `CONTAINER_NAME_BASE = "ccd"`. -/
def CONTAINER_NAME_BASE : String := "ccd"

/-- The feature-to-build-argument table `FEATURE_BUILD_ARGS`, in the
source's insertion order. -/
def FEATURE_BUILD_ARGS : List (String × String) :=
  [("rust", "WITH_RUST"),
   ("claude", "WITH_CLAUDE"),
   ("codex", "WITH_CODEX"),
   ("gemini", "WITH_GEMINI"),
   ("opencode", "WITH_OPENCODE"),
   ("copilot", "WITH_COPILOT")]

def featureNames : List String := FEATURE_BUILD_ARGS.map Prod.fst

/-! ## Logging configurator (`setup_logging`) -/

/-- Numeric value of Python `logging.DEBUG`. -/
def logging_DEBUG : Nat := 10

/-- Numeric value of Python `logging.INFO`. -/
def logging_INFO : Nat := 20

/-- Numeric value of Python `logging.WARNING`. -/
def logging_WARNING : Nat := 30

/-- The process-wide logging state produced by `setup_logging`:
the main logger's level and format, and whether the dedicated
`subprocess` logger was switched to DEBUG. -/
structure LoggingConfig where
  log_level : Nat
  log_format : String
  subprocess_debug : Bool
deriving DecidableEq

/-- Embedding of `setup_logging(verbosity)`.  A numerically smaller
level means more detail is emitted (DEBUG 10 < INFO 20 < WARNING 30). -/
def setup_logging (verbosity : Nat) : LoggingConfig :=
  let p : Nat × String :=
    if verbosity = 0 then (logging_WARNING, "%(message)s")
    else if verbosity = 1 then (logging_INFO, "%(levelname)s: %(message)s")
    else if verbosity = 2 then (logging_DEBUG, "%(levelname)s: %(funcName)s: %(message)s")
    else (logging_DEBUG, "%(asctime)s - %(levelname)s - %(funcName)s:%(lineno)d - %(message)s")
  { log_level := p.1
    log_format := p.2
    subprocess_debug := decide (3 ≤ verbosity) }

/-! ## Exit dispositions of the engine invocations

Each wrapper function surrounds one `subprocess.run` call with
`try/except` clauses.  `ChildBehavior` abstracts what that one call
does; the embedding returns the wrapper's resulting control flow
together with the exit code it logged, if any. -/

/-- What the spawned engine process does: exit with a status code,
raise `KeyboardInterrupt` into the wrapper, or fail to spawn with
`FileNotFoundError` (engine binary missing). -/
inductive ChildBehavior
  | exits (code : Nat)
  | interrupt
  | binaryMissing
deriving DecidableEq

/-- Control flow of a wrapper after its `try` block: fall through
normally, call `sys.exit code`, or let `KeyboardInterrupt` propagate
to the caller. -/
inductive Outcome
  | completed
  | exited (code : Nat)
  | interrupted
deriving DecidableEq

/-- Embedding of the `try/except` around `subprocess.run(build_command,
shell=True, check=True)` in `build_image`: `check=True` turns a
non-zero child status into `CalledProcessError`, which is logged and
answered with `sys.exit(1)`; `FileNotFoundError` also exits 1; there is
no `KeyboardInterrupt` handler here.  The second component is the exit
code logged by the error handler, if any. -/
def build_image_result : ChildBehavior → Outcome × Option Nat
  | .exits 0 => (.completed, none)
  | .exits (n + 1) => (.exited 1, some (n + 1))
  | .interrupt => (.interrupted, none)
  | .binaryMissing => (.exited 1, none)

/-- Embedding of the `try/except` around `subprocess.run(cmd,
check=True)` in `run_container`: non-zero child status is logged and
answered with `sys.exit(1)`; `KeyboardInterrupt` is caught and answered
with `sys.exit(0)`; `FileNotFoundError` exits 1. -/
def run_container_result : ChildBehavior → Outcome × Option Nat
  | .exits 0 => (.completed, none)
  | .exits (n + 1) => (.exited 1, some (n + 1))
  | .interrupt => (.exited 0, none)
  | .binaryMissing => (.exited 1, none)

/-- Embedding of the `try/except` around `subprocess.run(cmd)` in
`attach_container`.  This call passes no `check=True`, so a non-zero
child status raises nothing and the `except CalledProcessError` clause
is unreachable: the wrapper falls through normally for every exit code.
`KeyboardInterrupt` propagates (no handler); `FileNotFoundError` exits 1. -/
def attach_container_result : ChildBehavior → Outcome × Option Nat
  | .exits _ => (.completed, none)
  | .interrupt => (.interrupted, none)
  | .binaryMissing => (.exited 1, none)

/-- Process exit status resulting from an `Outcome` under `main`:
falling through ends the process with status 0; `sys.exit code` ends it
with `code`; a propagated `KeyboardInterrupt` is caught by `main`'s
top-level handler, which prints a message and calls `sys.exit(0)`. -/
def processExit (o : Outcome) : Nat :=
  match o with
  | .completed => 0
  | .exited code => code
  | .interrupted => 0

/-- Process exit status of `ccd build` as a function of the engine
invocation's behaviour. -/
def main_build_exit (b : ChildBehavior) : Nat :=
  processExit (build_image_result b).1

/-- Process exit status of `ccd run` as a function of the engine
invocation's behaviour. -/
def main_run_exit (b : ChildBehavior) : Nat :=
  processExit (run_container_result b).1

/-- Process exit status of `ccd attach` as a function of the engine
invocation's behaviour. -/
def main_attach_exit (b : ChildBehavior) : Nat :=
  processExit (attach_container_result b).1

/-! ## String helpers modelling the Python primitives used -/

/-- Characters of `s` with leading and trailing whitespace removed;
models Python `str.strip()`. -/
def stripChars (l : List Char) : List Char :=
  ((l.dropWhile Char.isWhitespace).reverse.dropWhile Char.isWhitespace).reverse

/-- Models Python `str.strip()`. -/
def pyStrip (s : String) : String := ⟨stripChars s.data⟩

/-- Models Python `str.isdigit()` (restricted to ASCII): true iff the
string is nonempty and every character is a decimal digit. -/
def pyIsDigit (s : String) : Bool :=
  !s.data.isEmpty && s.data.all Char.isDigit

/-- Models Python `int()` applied to a string of decimal digits. -/
def strToNat (s : String) : Nat :=
  s.data.foldl (fun a c => a * 10 + (c.toNat - 48)) 0

/-- Splits a character list at every comma; models Python
`str.split(",")` (which yields one piece even for the empty string). -/
def splitCommaAux : List Char → List (List Char)
  | [] => [[]]
  | c :: rest =>
    if c = ',' then [] :: splitCommaAux rest
    else
      match splitCommaAux rest with
      | h :: t => (c :: h) :: t
      | [] => [[c]]

/-- Models Python `str.split(",")`. -/
def splitOnComma (s : String) : List String :=
  (splitCommaAux s.data).map (fun l => ⟨l⟩)

/-- First-occurrence deduplication with an accumulator of already-seen
elements; `dedupAux seen l` keeps those members of `l` not in `seen`. -/
def dedupAux : List String → List String → List String
  | _, [] => []
  | seen, x :: xs =>
    if x ∈ seen then dedupAux seen xs else x :: dedupAux (x :: seen) xs

/-- The distinct elements of `l` in order of first occurrence; models
the contents of a Python `set` built by repeated insertion. -/
def dedup (l : List String) : List String := dedupAux [] l

/-- Code-point lexicographic strict order on character lists; models
Python string comparison. -/
def charListLt : List Char → List Char → Bool
  | [], [] => false
  | [], _ :: _ => true
  | _ :: _, [] => false
  | a :: as, b :: bs =>
    if a.toNat < b.toNat then true
    else if b.toNat < a.toNat then false
    else charListLt as bs

/-- Strict lexicographic order on strings (Python `<`). -/
def strLtB (a b : String) : Bool := charListLt a.data b.data

/-- Lexicographic order on strings (Python `<=`). -/
def strLeB (a b : String) : Bool := !strLtB b a

/-- Inserts `x` into `l` in front of the first element not
`le`-below it. -/
def insertLe {α : Type} (le : α → α → Bool) (x : α) : List α → List α
  | [] => [x]
  | y :: ys => if le x y then x :: y :: ys else y :: insertLe le x ys

/-- Insertion sort by `le`; models Python `sorted` (for a total `le`
the sorted sequence of a list of strings is unique, equal elements
being identical). -/
def sortLe {α : Type} (le : α → α → Bool) : List α → List α
  | [] => []
  | x :: xs => insertLe le x (sortLe le xs)

/-- Models `", ".join(l)`. -/
def joinCommaSpace : List String → String
  | [] => ""
  | h :: t => t.foldl (fun acc s => acc ++ ", " ++ s) h

/-- Python truthiness of an optional string flag value: `None` and the
empty string are falsy. -/
def isTruthy (o : Option String) : Bool := o.getD "" ≠ ""

/-! ## Feature-toggle resolution (`main`, build branch) -/

/-- The set of feature names parsed from a `--with`/`--without` value:
split on commas, strip each item, drop empties, deduplicate (the source
accumulates them into a Python `set`). -/
def parseFeatureList (s : String) : List String :=
  dedup (((splitOnComma s).map pyStrip).filter (fun f => f ≠ ""))

/-- Feature items sorted by feature name, as iterated by
`sorted(FEATURE_BUILD_ARGS.items())`. -/
def sortedFeatureItems : List (String × String) :=
  sortLe (fun a b => strLeB a.1 b.1) FEATURE_BUILD_ARGS

/-- The `--build-arg KEY=VALUE` pairs appended for every known feature,
where `value f` is the `"0"`/`"1"` toggle chosen for feature `f`. -/
def featureArgPairs (value : String → String) : List String :=
  sortedFeatureItems.foldr
    (fun p acc => "--build-arg" :: (p.2 ++ "=" ++ value p.1) :: acc) []

/-- Embedding of the feature-toggle resolution in `main`'s build branch
(the `--with`/`--without` handling).  On the error paths the result
carries the lines written by `logger.error` before `sys.exit(1)`;
on success it carries the feature `--build-arg` list appended to
`docker_arg_list` (empty when neither flag is supplied). -/
def resolveFeatureArgs (with_features without_features : Option String) :
    Except (List String) (List String) :=
  if isTruthy with_features && isTruthy without_features then
    .error ["Use only one of --with or --without"]
  else if isTruthy with_features then
    let requested := parseFeatureList (with_features.getD "")
    let unknownFeatures := requested.filter (fun f => f ∉ featureNames)
    if unknownFeatures ≠ [] then
      .error ["Unknown feature(s): " ++ joinCommaSpace (sortLe strLeB unknownFeatures),
              "Available features: " ++ joinCommaSpace (sortLe strLeB featureNames)]
    else
      .ok (featureArgPairs (fun f => if f ∈ requested then "1" else "0"))
  else if isTruthy without_features then
    let excluded := parseFeatureList (without_features.getD "")
    let unknownFeatures := excluded.filter (fun f => f ∉ featureNames)
    if unknownFeatures ≠ [] then
      .error ["Unknown feature(s): " ++ joinCommaSpace (sortLe strLeB unknownFeatures),
              "Available features: " ++ joinCommaSpace (sortLe strLeB featureNames)]
    else
      .ok (featureArgPairs (fun f => if f ∈ excluded then "0" else "1"))
  else
    .ok []

/-! ## Container naming -/

/-- Decimal digit characters of `n`, most significant first, computed
with explicit fuel (the fuel is sufficient whenever `n < 10 ^ fuel`,
and in particular whenever `fuel = n`). -/
def decDigits : Nat → Nat → List Char
  | 0, _ => []
  | fuel + 1, n =>
    if n = 0 then []
    else decDigits fuel (n / 10) ++ [Nat.digitChar (n % 10)]

/-- Decimal representation of `n`; models Python `str` of a
non-negative integer. -/
def decRepr (n : Nat) : String :=
  if n = 0 then "0" else ⟨decDigits n n⟩

/-- Models the Python format `f"\x7bsuffix:02d\x7d"`: the decimal
representation zero-padded on the left to at least two characters. -/
def pad02 (n : Nat) : String :=
  if n < 10 then "0" ++ decRepr n else decRepr n

/-- The candidate container name probed by
`get_next_free_container_name`:
`f"\x7bCONTAINER_NAME_BASE\x7d-\x7bfolder\x7d-\x7bsuffix:02d\x7d"`. -/
def candidateName (folder : String) (suffix : Nat) : String :=
  CONTAINER_NAME_BASE ++ "-" ++ folder ++ "-" ++ pad02 suffix

/-- The suffix-probing loop of `get_next_free_container_name`, with
explicit fuel standing for the unbounded `while True`.  Starting at
`suffix`, returns the first candidate name not in `running`. -/
def nextFreeAux (running : List String) (folder : String) :
    Nat → Nat → Option String
  | 0, _ => none
  | fuel + 1, suffix =>
    let candidate := candidateName folder suffix
    if candidate ∈ running then nextFreeAux running folder fuel (suffix + 1)
    else some candidate

/-- The longest name length occurring in the running list. -/
def maxLen : List String → Nat
  | [] => 0
  | s :: rest => max s.length (maxLen rest)

/-- Fuel sufficient for the probing loop: the candidate for suffix
`10 ^ (maxLen running + 1)` is longer than every running name, so a
free suffix exists below this bound. -/
def nameSearchFuel (running : List String) : Nat :=
  10 ^ (maxLen running + 1)

/-- Embedding of `get_next_free_container_name(folder)`.  The running
list (the source obtains it from `get_running_containers()`) is passed
explicitly; the `while True` loop is run with provably sufficient
fuel, so `none` never actually occurs. -/
def get_next_free_container_name (running : List String) (folder : String) :
    Option String :=
  nextFreeAux running folder (nameSearchFuel running) 1

/-- Models `name.startswith(CONTAINER_NAME_BASE + "-")`. -/
def startsWithBase (name : String) : Bool :=
  (CONTAINER_NAME_BASE ++ "-").data.isPrefixOf name.data

/-- Embedding of `get_running_containers()`: from the engine's list of
running container names (the lines of `docker ps`), keep those starting
with the fixed base followed by a dash, lexicographically sorted. -/
def get_running_containers (psNames : List String) : List String :=
  sortLe strLeB (psNames.filter startsWithBase)

/-! ## Interactive container selection (`prompt_container_name`) -/

/-- Result of `prompt_container_name`: the `ValueError` raised when
nothing is running, a selected name, or the end of the input stream. -/
inductive PromptResult
  | noContainers
  | selected (name : String)
  | inputExhausted
deriving DecidableEq

/-- One pass of the prompt loop body over the remaining input lines:
strip the line; empty selects the default (first name); an exact
running name selects it; a digit string selects by index when in
range; anything else re-prompts on the next line. -/
def promptLoop (running : List String) : List String → PromptResult
  | [] => .inputExhausted
  | line :: rest =>
    let name := pyStrip line
    if name = "" then .selected (running.headD "")
    else if name ∈ running then .selected name
    else if pyIsDigit name then
      if strToNat name < running.length then .selected (running.getD (strToNat name) "")
      else promptLoop running rest
    else promptLoop running rest

/-- Embedding of `prompt_container_name()`.  `running` is the sorted
output of `get_running_containers` (it does not change between loop
iterations in this model) and `inputs` the stream of lines `input()`
yields.  With no running containers the function raises
(`noContainers`); with exactly one it returns it without reading any
input; otherwise it runs the prompt loop.  The source's
`0 <= index` guard holds trivially for the `Nat` index. -/
def prompt_container_name (running : List String) (inputs : List String) :
    PromptResult :=
  if running = [] then .noContainers
  else if running.length = 1 then .selected (running.headD "")
  else promptLoop running inputs

/-! ## Filesystem model, `PathSpec`, `VolumeManager`

Host paths are modelled as lists of components below the filesystem
root, and the filesystem as an association list from such paths to
entries.  `Path.mkdir(parents=True, exist_ok=True)` and
`Path.touch(exist_ok=True)` become explicit state transformers that may
fail (raise), as the originals do when a path component is occupied by
an entry of the wrong kind. -/

/-- A host path: components below the filesystem root. -/
abbrev FsPath := List String

/-- A filesystem entry: a directory, or a file with its content. -/
inductive Entry
  | dir
  | file (content : String)
deriving DecidableEq

/-- The host filesystem: an association list from paths to entries
(first binding wins; the operations below only add absent paths, so
functionality is preserved). -/
abbrev Fs := List (FsPath × Entry)

/-- Entry at `p`, if any. -/
def fsLookup : Fs → FsPath → Option Entry
  | [], _ => none
  | (q, e) :: rest, p => if q = p then some e else fsLookup rest p

/-- Worker for `mkdirParents`: walks the remaining components,
creating each missing ancestor directory; raises `FileExistsError`
when a component is occupied by a file. -/
def mkdirAux (fs : Fs) (sofar : FsPath) : List String → Except String Fs
  | [] => .ok fs
  | c :: rest =>
    let q := sofar ++ [c]
    match fsLookup fs q with
    | none => mkdirAux ((q, Entry.dir) :: fs) q rest
    | some Entry.dir => mkdirAux fs q rest
    | some (Entry.file _) => .error "FileExistsError"

/-- Models `spec.path.mkdir(parents=True, exist_ok=True)`. -/
def mkdirParents (fs : Fs) (p : FsPath) : Except String Fs :=
  mkdirAux fs [] p

/-- Models `spec.path.touch(exist_ok=True)`: an existing entry is left
untouched (only its timestamps change); an absent path becomes an
empty file provided its parent directory exists; otherwise the call
raises `FileNotFoundError`. -/
def touchFile (fs : Fs) (p : FsPath) : Except String Fs :=
  match fsLookup fs p with
  | some _ => .ok fs
  | none =>
    if p.dropLast = [] ∨ fsLookup fs p.dropLast = some Entry.dir then
      .ok ((p, Entry.file "") :: fs)
    else .error "FileNotFoundError"

/-- Embedding of the `PathSpec` dataclass: host path, container-side
mount target, and the `type` literal (`"file"` or `"folder"`,
defaulting to `"folder"`). -/
structure PathSpec where
  path : FsPath
  volume_mapping : String
  type : String := "folder"
deriving DecidableEq

/-- First pass of `VolumeManager.prepare_paths`: create every
directory-kind path. -/
def prepareDirs (fs : Fs) : List PathSpec → Except String Fs
  | [] => .ok fs
  | spec :: rest =>
    if spec.type = "folder" then
      match mkdirParents fs spec.path with
      | .ok fs' => prepareDirs fs' rest
      | .error e => .error e
    else prepareDirs fs rest

/-- Second pass of `VolumeManager.prepare_paths`: create every
file-kind path. -/
def prepareFiles (fs : Fs) : List PathSpec → Except String Fs
  | [] => .ok fs
  | spec :: rest =>
    if spec.type = "file" then
      match touchFile fs spec.path with
      | .ok fs' => prepareFiles fs' rest
      | .error e => .error e
    else prepareFiles fs rest

/-- Embedding of `VolumeManager.prepare_paths`: directories first,
then files. -/
def prepare_paths (specs : List PathSpec) (fs : Fs) : Except String Fs :=
  match prepareDirs fs specs with
  | .ok fs' => prepareFiles fs' specs
  | .error e => .error e

/-- Rendering of a host path as the absolute path string interpolated
into the mount flag. -/
def renderPath (p : FsPath) : String :=
  p.foldl (fun acc c => acc ++ "/" ++ c) ""

/-- Embedding of `VolumeManager.get_volume_commands`: for each spec in
order, re-validate that the source path still exists (raising
`FileNotFoundError` otherwise) and emit the pair
`-v source:target`. -/
def get_volume_commands (fs : Fs) : List PathSpec → Except String (List String)
  | [] => .ok []
  | spec :: rest =>
    if (fsLookup fs spec.path).isSome then
      match get_volume_commands fs rest with
      | .ok cmds => .ok ("-v" :: (renderPath spec.path ++ ":" ++ spec.volume_mapping) :: cmds)
      | .error e => .error e
    else .error ("Source path does not exist: " ++ renderPath spec.path)

/-- The six `PathSpec`s built by `run_container` from the resolved app
path and home path: the app folder, then the `.claude` directory, the
`.claude.json` file, and the `.gemini`, `.codex`, `.copilot`
directories, targeted below the container-side home folder. -/
def runPathSpecs (app_path home_path : FsPath) : List PathSpec :=
  [{ path := app_path, volume_mapping := "/app" },
   { path := home_path ++ [".claude"],
     volume_mapping := IMAGE_HOME_FOLDER ++ "/.claude" },
   { path := home_path ++ [".claude.json"],
     volume_mapping := IMAGE_HOME_FOLDER ++ "/.claude.json", type := "file" },
   { path := home_path ++ [".gemini"],
     volume_mapping := IMAGE_HOME_FOLDER ++ "/.gemini" },
   { path := home_path ++ [".codex"],
     volume_mapping := IMAGE_HOME_FOLDER ++ "/.codex" },
   { path := home_path ++ [".copilot"],
     volume_mapping := IMAGE_HOME_FOLDER ++ "/.copilot" }]

/-- Every nonempty prefix of `p` is bound to a directory in `fs` —
the state `mkdirParents` establishes and relies on. -/
def allPrefixesDir (fs : Fs) (p : FsPath) : Prop :=
  ∀ (l₁ : FsPath) (c : String) (l₂ : FsPath), p = l₁ ++ c :: l₂ →
    fsLookup fs (l₁ ++ [c]) = some Entry.dir

/-- Demonstration spec list: the six mount sources for app folder
`/work` and home folder `/h`. -/
def demoSpecs : List PathSpec := runPathSpecs ["work"] ["h"]

/-- The filesystem produced by preparing `demoSpecs` from an empty
filesystem. -/
def demoPreparedFs : Fs := (prepare_paths demoSpecs []).toOption.getD []

/-! ## Lemmas: container naming (termination and minimality) -/

theorem decDigits_zero (fuel : Nat) : decDigits fuel 0 = [] := by
  cases fuel <;> simp [decDigits]

theorem decDigits_pow_length : ∀ (m fuel : Nat), m < fuel →
    (decDigits fuel (10 ^ m)).length = m + 1 := by
  intro m
  induction m with
  | zero =>
    intro fuel h
    obtain ⟨f, rfl⟩ : ∃ f, fuel = f + 1 :=
      ⟨fuel - 1, (Nat.succ_pred_eq_of_pos h).symm⟩
    simp [decDigits, decDigits_zero]
  | succ m ih =>
    intro fuel h
    obtain ⟨f, rfl⟩ : ∃ f, fuel = f + 1 :=
      ⟨fuel - 1, (Nat.succ_pred_eq_of_pos (Nat.lt_of_le_of_lt (Nat.zero_le _) h)).symm⟩
    have hpos : (0 : Nat) < 10 ^ (m + 1) := pow_pos (by norm_num) _
    have hdiv : 10 ^ (m + 1) / 10 = 10 ^ m := by
      rw [pow_succ]
      exact Nat.mul_div_cancel _ (by norm_num)
    have hm : m < f := Nat.lt_of_succ_lt_succ h
    simp [decDigits, hpos.ne', hdiv, ih f hm]

theorem decRepr_pow_length (m : Nat) : (decRepr (10 ^ m)).length = m + 1 := by
  have hpos : (0 : Nat) < 10 ^ m := pow_pos (by norm_num) _
  rw [decRepr, if_neg hpos.ne']
  show (decDigits (10 ^ m) (10 ^ m)).length = m + 1
  exact decDigits_pow_length m (10 ^ m) (Nat.lt_pow_self (by norm_num) m)

theorem pad02_pow_length (m : Nat) (hm : 1 ≤ m) : (pad02 (10 ^ m)).length = m + 1 := by
  have h10 : ¬ 10 ^ m < 10 := by
    have h : (10 : Nat) ^ 1 ≤ 10 ^ m := Nat.pow_le_pow_right (by norm_num) hm
    rw [pow_one] at h
    omega
  rw [pad02, if_neg h10]
  exact decRepr_pow_length m

theorem pad02_length_le_candidate (folder : String) (k : Nat) :
    (pad02 k).length ≤ (candidateName folder k).length := by
  rw [candidateName]
  simp only [String.length_append]
  omega

theorem length_le_maxLen : ∀ (running : List String) (s : String),
    s ∈ running → s.length ≤ maxLen running := by
  intro running
  induction running with
  | nil => intro s h; simp at h
  | cons a rest ih =>
    intro s h
    rw [maxLen]
    rcases List.mem_cons.mp h with rfl | h'
    · exact le_max_left _ _
    · exact le_trans (ih s h') (le_max_right _ _)

theorem candidate_big_not_mem (running : List String) (folder : String) :
    candidateName folder (10 ^ (maxLen running + 1)) ∉ running := by
  intro hmem
  have h1 : (candidateName folder (10 ^ (maxLen running + 1))).length ≤ maxLen running :=
    length_le_maxLen running _ hmem
  have h2 : (pad02 (10 ^ (maxLen running + 1))).length = maxLen running + 2 :=
    pad02_pow_length _ (Nat.le_add_left 1 _)
  have h3 := pad02_length_le_candidate folder (10 ^ (maxLen running + 1))
  omega

theorem nextFreeAux_total (running : List String) (folder : String) :
    ∀ (fuel start : Nat),
      (∃ k, start ≤ k ∧ k < start + fuel ∧ candidateName folder k ∉ running) →
      (nextFreeAux running folder fuel start).isSome = true := by
  intro fuel
  induction fuel with
  | zero =>
    intro start h
    obtain ⟨k, h1, h2, _⟩ := h
    omega
  | succ fuel ih =>
    intro start h
    obtain ⟨k, h1, h2, h3⟩ := h
    show (if candidateName folder start ∈ running then
            nextFreeAux running folder fuel (start + 1)
          else some (candidateName folder start)).isSome = true
    by_cases hc : candidateName folder start ∈ running
    · rw [if_pos hc]
      apply ih
      have hk : start ≠ k := fun he => h3 (he ▸ hc)
      exact ⟨k, by omega, by omega, h3⟩
    · rw [if_neg hc]
      rfl

theorem get_next_free_isSome (running : List String) (folder : String) :
    (get_next_free_container_name running folder).isSome = true := by
  show (nextFreeAux running folder (nameSearchFuel running) 1).isSome = true
  apply nextFreeAux_total
  have hpos : (0 : Nat) < 10 ^ (maxLen running + 1) := pow_pos (by norm_num) _
  exact ⟨10 ^ (maxLen running + 1), by omega,
    by rw [nameSearchFuel]; omega, candidate_big_not_mem running folder⟩

theorem nextFreeAux_spec (running : List String) (folder : String) :
    ∀ (fuel start : Nat) (s : String), nextFreeAux running folder fuel start = some s →
      ∃ k, start ≤ k ∧ s = candidateName folder k ∧ candidateName folder k ∉ running ∧
        ∀ j, start ≤ j → j < k → candidateName folder j ∈ running := by
  intro fuel
  induction fuel with
  | zero => intro start s h; simp [nextFreeAux] at h
  | succ fuel ih =>
    intro start s h
    rw [show nextFreeAux running folder (fuel + 1) start =
        (if candidateName folder start ∈ running then
           nextFreeAux running folder fuel (start + 1)
         else some (candidateName folder start)) from rfl] at h
    by_cases hc : candidateName folder start ∈ running
    · rw [if_pos hc] at h
      obtain ⟨k, h1, h2, h3, h4⟩ := ih (start + 1) s h
      refine ⟨k, by omega, h2, h3, ?_⟩
      intro j hj1 hj2
      rcases Nat.eq_or_lt_of_le hj1 with rfl | hj
      · exact hc
      · exact h4 j hj hj2
    · rw [if_neg hc] at h
      obtain rfl : candidateName folder start = s := by simpa using h
      refine ⟨start, le_refl _, rfl, hc, ?_⟩
      intro j hj1 hj2
      exact absurd hj2 (by omega)

/-- C1: for every project folder name and every running-name list,
`get_next_free_container_name` returns the candidate name whose suffix
is the smallest positive integer (zero-padded to two digits by
`pad02` inside `candidateName`) whose candidate is not in the running
list; in particular it returns `ccd-foo-01` when the running list has
no name for project `foo`, and `ccd-foo-03` when `ccd-foo-01` and
`ccd-foo-02` are running. -/
theorem c1_next_free_name :
    (∀ (running : List String) (folder : String), ∃ k, 1 ≤ k ∧
        get_next_free_container_name running folder = some (candidateName folder k) ∧
        candidateName folder k ∉ running ∧
        ∀ j, 1 ≤ j → j < k → candidateName folder j ∈ running) ∧
    candidateName "foo" 1 = "ccd-foo-01" ∧
    get_next_free_container_name ["ccd-bar-01"] "foo" = some "ccd-foo-01" ∧
    get_next_free_container_name ["ccd-foo-01", "ccd-foo-02"] "foo" = some "ccd-foo-03" := by
  refine ⟨?_, rfl, rfl, rfl⟩
  intro running folder
  obtain ⟨s, hs⟩ := Option.isSome_iff_exists.mp (get_next_free_isSome running folder)
  obtain ⟨k, h1, h2, h3, h4⟩ := nextFreeAux_spec running folder (nameSearchFuel running) 1 s hs
  exact ⟨k, h1, by rw [hs, h2], h3, h4⟩

/-- C10: for every running-name list and project folder name, the
suffix-probing loop of `get_next_free_container_name` terminates: with
the provably sufficient fuel `nameSearchFuel` it returns, in finitely
many steps, a candidate name that is not in the running list (the
`none` branch of the fuelled loop is never taken). -/
theorem c10_next_free_terminates (running : List String) (folder : String) :
    ∃ name, get_next_free_container_name running folder = some name ∧ name ∉ running := by
  obtain ⟨s, hs⟩ := Option.isSome_iff_exists.mp (get_next_free_isSome running folder)
  obtain ⟨k, _, h2, h3, _⟩ := nextFreeAux_spec running folder (nameSearchFuel running) 1 s hs
  exact ⟨s, hs, h2 ▸ h3⟩

/-! ## Theorems: logging configurator -/

/-- C8: for verbosity counts in 0..4 the configured log level is
monotonically non-decreasing in detail (numerically non-increasing,
since DEBUG 10 < INFO 20 < WARNING 30 and a smaller level emits more);
verbosity 0 configures warning-only plain text; verbosity at least 3
configures the timestamped file/line/function format; and the
`subprocess` logger is switched to DEBUG exactly when verbosity is at
least 3. -/
theorem c8_setup_logging_monotone :
    (∀ v, v < 5 → ∀ w, w < 5 → v ≤ w →
       (setup_logging w).log_level ≤ (setup_logging v).log_level) ∧
    setup_logging 0 = ⟨logging_WARNING, "%(message)s", false⟩ ∧
    (∀ v, v < 5 → 3 ≤ v →
       (setup_logging v).log_format =
         "%(asctime)s - %(levelname)s - %(funcName)s:%(lineno)d - %(message)s") ∧
    (∀ v, v < 5 → ((setup_logging v).subprocess_debug = true ↔ 3 ≤ v)) := by
  decide

/-- Witness for C8 at concrete verbosity counts 1 and 4. -/
theorem c8_setup_logging_monotone_witness :
    (setup_logging 4).log_level ≤ (setup_logging 1).log_level :=
  c8_setup_logging_monotone.1 1 (by decide) 4 (by decide) (by decide)

/-! ## Theorems: exit dispositions of the engine invocations -/

/-- C2 counterexample: a simulated engine invocation exiting with
status 7 under the attach builder does not terminate the process with
exit status 1 — `attach_container` calls `subprocess.run(cmd)` without
`check=True`, so no `CalledProcessError` is raised, the dead `except`
clause logs nothing, and the wrapper completes with process status 0. -/
theorem c2_attach_not_fatal_counterexample :
    main_attach_exit (ChildBehavior.exits 7) ≠ 1 ∧
    attach_container_result (ChildBehavior.exits 7) = (Outcome.completed, none) := by
  decide

/-- C2 amended: the build and run builders treat a non-zero engine
exit as fatal — they log the child's exit code and terminate the
process with status 1 (not the child's status); in particular a child
exiting 7 makes them exit 1 after logging code 7.  The attach builder's
engine invocation passes no check flag, so it never raises on a
non-zero session status: nothing is logged and the process completes
with status 0. -/
theorem c2_nonzero_exit_fatal (n : Nat) :
    build_image_result (.exits (n + 1)) = (.exited 1, some (n + 1)) ∧
    run_container_result (.exits (n + 1)) = (.exited 1, some (n + 1)) ∧
    main_build_exit (.exits (n + 1)) = 1 ∧
    main_run_exit (.exits (n + 1)) = 1 ∧
    attach_container_result (.exits (n + 1)) = (.completed, none) ∧
    main_attach_exit (.exits (n + 1)) = 0 ∧
    build_image_result (.exits 7) = (.exited 1, some 7) ∧
    run_container_result (.exits 7) = (.exited 1, some 7) :=
  ⟨rfl, rfl, rfl, rfl, rfl, rfl, rfl, rfl⟩

/-- C9 counterexample: the attach path does not fail when the
interactive session returns non-zero — with the session exiting 5 the
wrapper's process status is 0, because `attach_container`'s
`subprocess.run` call has no `check=True` and a non-zero status raises
nothing. -/
theorem c9_attach_nonzero_session_counterexample :
    main_attach_exit (ChildBehavior.exits 5) = 0 ∧
    (attach_container_result (ChildBehavior.exits 5)).1 ≠ Outcome.exited 1 := by
  decide

/-- C9 amended: a keyboard interrupt during the run subcommand is
caught by the handler around `run_container`'s engine invocation (the
only such handler among the three builders' `try` blocks) and the
process terminates with status 0.  `attach_container` does not
special-case interrupts: one propagates out of it, to be caught by
`main`'s top-level handler, which also exits 0.  A non-zero
interactive-session exit in attach is not checked at all: the wrapper
completes with process status 0 rather than failing. -/
theorem c9_run_interrupt_clean (n : Nat) :
    run_container_result .interrupt = (.exited 0, none) ∧
    main_run_exit .interrupt = 0 ∧
    build_image_result .interrupt = (.interrupted, none) ∧
    attach_container_result .interrupt = (.interrupted, none) ∧
    main_attach_exit .interrupt = 0 ∧
    main_attach_exit (.exits (n + 1)) = 0 :=
  ⟨rfl, rfl, rfl, rfl, rfl, rfl⟩

/-! ## Lemmas and theorems: feature-toggle resolution -/

theorem mem_insertLe {α : Type} (le : α → α → Bool) (x a : α) :
    ∀ (l : List α), a ∈ insertLe le x l ↔ a = x ∨ a ∈ l := by
  intro l
  induction l with
  | nil => simp [insertLe]
  | cons y ys ih =>
    rw [insertLe]
    by_cases h : le x y
    · rw [if_pos h]
      simp [List.mem_cons]
    · rw [if_neg h]
      simp [List.mem_cons, ih]
      tauto

theorem mem_sortLe {α : Type} (le : α → α → Bool) (a : α) :
    ∀ (l : List α), a ∈ l → a ∈ sortLe le l := by
  intro l
  induction l with
  | nil => simp
  | cons y ys ih =>
    intro h
    rw [sortLe, mem_insertLe]
    rcases List.mem_cons.mp h with rfl | h'
    · exact Or.inl rfl
    · exact Or.inr (ih h')

theorem mem_foldrArgs (value : String → String) (f arg : String) :
    ∀ (items : List (String × String)), (f, arg) ∈ items →
      (arg ++ "=" ++ value f) ∈
        items.foldr (fun p acc => "--build-arg" :: (p.2 ++ "=" ++ value p.1) :: acc) [] := by
  intro items
  induction items with
  | nil => intro h; simp at h
  | cons p rest ih =>
    intro h
    rcases List.mem_cons.mp h with h | h
    · rw [List.foldr_cons, ← h]
      exact List.mem_cons_of_mem _ (List.mem_cons_self _ _)
    · exact List.mem_cons_of_mem _ (List.mem_cons_of_mem _ (ih h))

theorem mem_featureArgPairs (value : String → String) (f arg : String)
    (h : (f, arg) ∈ FEATURE_BUILD_ARGS) :
    (arg ++ "=" ++ value f) ∈ featureArgPairs value :=
  mem_foldrArgs value f arg sortedFeatureItems (mem_sortLe _ _ _ h)

theorem resolve_with_ok (w : String) (hne : w ≠ "") (L : List String)
    (h : resolveFeatureArgs (some w) none = .ok L) :
    L = featureArgPairs (fun f => if f ∈ parseFeatureList w then "1" else "0") := by
  have hw : isTruthy (some w) = true := by simp [isTruthy, hne]
  have hn : isTruthy (none : Option String) = false := rfl
  rw [resolveFeatureArgs] at h
  rw [hw, hn] at h
  simp only [Bool.and_false, Bool.false_eq_true, if_false, if_true, Option.getD_some] at h
  by_cases hu : List.filter (fun f => decide (f ∉ featureNames)) (parseFeatureList w) ≠ []
  · rw [if_pos hu] at h
    exact absurd h (by simp)
  · rw [if_neg hu] at h
    simpa using h.symm

theorem resolve_without_ok (wo : String) (hne : wo ≠ "") (L : List String)
    (h : resolveFeatureArgs none (some wo) = .ok L) :
    L = featureArgPairs (fun f => if f ∈ parseFeatureList wo then "0" else "1") := by
  have hw : isTruthy (some wo) = true := by simp [isTruthy, hne]
  have hn : isTruthy (none : Option String) = false := rfl
  rw [resolveFeatureArgs] at h
  rw [hw, hn] at h
  simp only [Bool.false_and, Bool.false_eq_true, if_false, if_true, Option.getD_some] at h
  by_cases hu : List.filter (fun f => decide (f ∉ featureNames)) (parseFeatureList wo) ≠ []
  · rw [if_pos hu] at h
    exact absurd h (by simp)
  · rw [if_neg hu] at h
    simpa using h.symm

/-- C4: on the build subcommand, a successful feature resolution with
`--with LIST` emits, for every known feature, its build argument set to
1 when the feature is in the (comma-split, stripped) list and 0
otherwise; `--without LIST` emits the flipped values; supplying neither
flag emits no feature build-arguments at all.  In particular
`--with claude,rust` yields WITH_CLAUDE=1, WITH_CODEX=0, WITH_COPILOT=0,
WITH_GEMINI=0, WITH_OPENCODE=0, WITH_RUST=1 (emitted in feature-name
order), and `--without gemini` yields WITH_GEMINI=0 with every other
known feature =1. -/
theorem c4_feature_toggle_resolution :
    (∀ (w : String) (L : List String), w ≠ "" →
       resolveFeatureArgs (some w) none = .ok L →
       ∀ f arg, (f, arg) ∈ FEATURE_BUILD_ARGS →
         (arg ++ "=" ++ (if f ∈ parseFeatureList w then "1" else "0")) ∈ L) ∧
    (∀ (wo : String) (L : List String), wo ≠ "" →
       resolveFeatureArgs none (some wo) = .ok L →
       ∀ f arg, (f, arg) ∈ FEATURE_BUILD_ARGS →
         (arg ++ "=" ++ (if f ∈ parseFeatureList wo then "0" else "1")) ∈ L) ∧
    resolveFeatureArgs none none = .ok [] ∧
    resolveFeatureArgs (some "claude,rust") none = .ok
      ["--build-arg", "WITH_CLAUDE=1", "--build-arg", "WITH_CODEX=0",
       "--build-arg", "WITH_COPILOT=0", "--build-arg", "WITH_GEMINI=0",
       "--build-arg", "WITH_OPENCODE=0", "--build-arg", "WITH_RUST=1"] ∧
    resolveFeatureArgs none (some "gemini") = .ok
      ["--build-arg", "WITH_CLAUDE=1", "--build-arg", "WITH_CODEX=1",
       "--build-arg", "WITH_COPILOT=1", "--build-arg", "WITH_GEMINI=0",
       "--build-arg", "WITH_OPENCODE=1", "--build-arg", "WITH_RUST=1"] := by
  refine ⟨?_, ?_, rfl, rfl, rfl⟩
  · intro w L hne h f arg hf
    rw [resolve_with_ok w hne L h]
    exact mem_featureArgPairs _ f arg hf
  · intro wo L hne h f arg hf
    rw [resolve_without_ok wo hne L h]
    exact mem_featureArgPairs _ f arg hf

/-- Witness for C4 at the concrete input `--with claude,rust` and
feature `rust`. -/
theorem c4_feature_toggle_resolution_witness :
    ("WITH_RUST" ++ "=" ++ (if "rust" ∈ parseFeatureList "claude,rust" then "1" else "0")) ∈
      ["--build-arg", "WITH_CLAUDE=1", "--build-arg", "WITH_CODEX=0",
       "--build-arg", "WITH_COPILOT=0", "--build-arg", "WITH_GEMINI=0",
       "--build-arg", "WITH_OPENCODE=0", "--build-arg", "WITH_RUST=1"] :=
  c4_feature_toggle_resolution.1 "claude,rust"
    ["--build-arg", "WITH_CLAUDE=1", "--build-arg", "WITH_CODEX=0",
     "--build-arg", "WITH_COPILOT=0", "--build-arg", "WITH_GEMINI=0",
     "--build-arg", "WITH_OPENCODE=0", "--build-arg", "WITH_RUST=1"]
    (by decide) (by rfl) "rust" "WITH_RUST" (by decide)

/-- C5: a feature name outside the known feature set in either the
`--with` or the `--without` list makes the build subcommand fail with a
usage error whose messages include the valid feature set, and no
feature build-argument is emitted (the result is the error branch, not
an argument list); supplying both `--with` and `--without` together is
likewise a fatal usage error. -/
theorem c5_unknown_feature_fatal :
    (∀ w : String, w ≠ "" → (∃ f, f ∈ parseFeatureList w ∧ f ∉ featureNames) →
       resolveFeatureArgs (some w) none = .error
         ["Unknown feature(s): " ++
            joinCommaSpace (sortLe strLeB ((parseFeatureList w).filter (fun f => f ∉ featureNames))),
          "Available features: " ++ joinCommaSpace (sortLe strLeB featureNames)]) ∧
    (∀ wo : String, wo ≠ "" → (∃ f, f ∈ parseFeatureList wo ∧ f ∉ featureNames) →
       resolveFeatureArgs none (some wo) = .error
         ["Unknown feature(s): " ++
            joinCommaSpace (sortLe strLeB ((parseFeatureList wo).filter (fun f => f ∉ featureNames))),
          "Available features: " ++ joinCommaSpace (sortLe strLeB featureNames)]) ∧
    joinCommaSpace (sortLe strLeB featureNames) = "claude, codex, copilot, gemini, opencode, rust" ∧
    (∀ w wo : String, w ≠ "" → wo ≠ "" →
       resolveFeatureArgs (some w) (some wo) = .error ["Use only one of --with or --without"]) := by
  refine ⟨?_, ?_, rfl, ?_⟩
  · intro w hne hex
    have hw : isTruthy (some w) = true := by simp [isTruthy, hne]
    have hn : isTruthy (none : Option String) = false := rfl
    rw [resolveFeatureArgs, hw, hn]
    simp only [Bool.and_false, Bool.false_eq_true, if_false, if_true, Option.getD_some]
    have hu : List.filter (fun f => decide (f ∉ featureNames)) (parseFeatureList w) ≠ [] := by
      obtain ⟨f, hf1, hf2⟩ := hex
      exact List.ne_nil_of_mem (List.mem_filter.mpr ⟨hf1, by simpa using hf2⟩)
    rw [if_pos hu]
  · intro wo hne hex
    have hw : isTruthy (some wo) = true := by simp [isTruthy, hne]
    have hn : isTruthy (none : Option String) = false := rfl
    rw [resolveFeatureArgs, hn, hw]
    simp only [Bool.false_and, Bool.false_eq_true, if_false, if_true, Option.getD_some]
    have hu : List.filter (fun f => decide (f ∉ featureNames)) (parseFeatureList wo) ≠ [] := by
      obtain ⟨f, hf1, hf2⟩ := hex
      exact List.ne_nil_of_mem (List.mem_filter.mpr ⟨hf1, by simpa using hf2⟩)
    rw [if_pos hu]
  · intro w wo hw' hwo'
    have hw : isTruthy (some w) = true := by simp [isTruthy, hw']
    have hwo : isTruthy (some wo) = true := by simp [isTruthy, hwo']
    rw [resolveFeatureArgs, hw, hwo]
    rfl

/-- Witness for C5 at the concrete input `--with badfeat`. -/
theorem c5_unknown_feature_fatal_witness :
    resolveFeatureArgs (some "badfeat") none = .error
      ["Unknown feature(s): " ++
         joinCommaSpace (sortLe strLeB ((parseFeatureList "badfeat").filter (fun f => f ∉ featureNames))),
       "Available features: " ++ joinCommaSpace (sortLe strLeB featureNames)] :=
  c5_unknown_feature_fatal.1 "badfeat" (by decide) ⟨"badfeat", by decide, by decide⟩

/-! ## Lemmas and theorems: lexicographic order and container selection -/

theorem charListLt_asymm : ∀ (a b : List Char),
    charListLt a b = true → charListLt b a = false := by
  intro a
  induction a with
  | nil =>
    intro b h
    cases b with
    | nil => simp [charListLt] at h
    | cons c cs => rfl
  | cons x xs ih =>
    intro b h
    cases b with
    | nil => simp [charListLt] at h
    | cons c cs =>
      rw [charListLt] at h
      rw [charListLt]
      by_cases h1 : x.toNat < c.toNat
      · rw [if_neg (by omega), if_pos h1]
      · rw [if_neg h1] at h
        by_cases h2 : c.toNat < x.toNat
        · rw [if_pos h2] at h
          simp at h
        · rw [if_neg h2] at h
          rw [if_neg h2, if_neg h1]
          exact ih cs h

theorem charListLt_irrefl : ∀ (a : List Char), charListLt a a = false := by
  intro a
  induction a with
  | nil => rfl
  | cons x xs ih =>
    rw [charListLt, if_neg (Nat.lt_irrefl _), if_neg (Nat.lt_irrefl _)]
    exact ih

theorem charListLt_eq_of_not : ∀ (a b : List Char),
    charListLt a b = false → charListLt b a = false → a = b := by
  intro a
  induction a with
  | nil =>
    intro b h1 h2
    cases b with
    | nil => rfl
    | cons c cs => simp [charListLt] at h1
  | cons x xs ih =>
    intro b h1 h2
    cases b with
    | nil => simp [charListLt] at h2
    | cons c cs =>
      rw [charListLt] at h1 h2
      by_cases hx : x.toNat < c.toNat
      · rw [if_pos hx] at h1
        simp at h1
      · by_cases hc : c.toNat < x.toNat
        · rw [if_pos hc] at h2
          simp at h2
        · rw [if_neg hx, if_neg hc] at h1
          have heq : x = c := Char.ext (UInt32.ext (show x.toNat = c.toNat from by omega))
          rw [heq, ih cs h1 (by rw [if_neg hc, if_neg hx] at h2; exact h2)]

theorem charListLt_trans : ∀ (a b c : List Char),
    charListLt a b = true → charListLt b c = true → charListLt a c = true := by
  intro a
  induction a with
  | nil =>
    intro b c h1 h2
    cases b with
    | nil => simp [charListLt] at h1
    | cons y ys =>
      cases c with
      | nil => simp [charListLt] at h2
      | cons z zs => rfl
  | cons x xs ih =>
    intro b c h1 h2
    cases b with
    | nil => simp [charListLt] at h1
    | cons y ys =>
      cases c with
      | nil => simp [charListLt] at h2
      | cons z zs =>
        rw [charListLt] at h1 h2
        rw [charListLt]
        by_cases hxy : x.toNat < y.toNat
        · by_cases hyz : y.toNat < z.toNat
          · rw [if_pos (by omega)]
          · rw [if_neg hyz] at h2
            by_cases hzy : z.toNat < y.toNat
            · rw [if_pos hzy] at h2
              simp at h2
            · rw [if_pos (by omega)]
        · rw [if_neg hxy] at h1
          by_cases hyx : y.toNat < x.toNat
          · rw [if_pos hyx] at h1
            simp at h1
          · rw [if_neg hyx] at h1
            have hxyeq : x = y := Char.ext (UInt32.ext (show x.toNat = y.toNat from by omega))
            subst hxyeq
            by_cases hxz : x.toNat < z.toNat
            · rw [if_pos hxz]
            · rw [if_neg hxz] at h2 ⊢
              by_cases hzx : z.toNat < x.toNat
              · rw [if_pos hzx] at h2
                simp at h2
              · rw [if_neg hzx] at h2 ⊢
                exact ih ys zs h1 h2

theorem strLeB_refl (a : String) : strLeB a a = true := by
  rw [strLeB, strLtB, charListLt_irrefl]
  rfl

theorem strLeB_total (a b : String) : strLeB a b = true ∨ strLeB b a = true := by
  rw [strLeB, strLeB, strLtB, strLtB]
  by_cases h : charListLt b.data a.data = true
  · right
    rw [charListLt_asymm _ _ h]
    rfl
  · left
    rw [Bool.not_eq_true] at h
    rw [h]
    rfl

theorem strLeB_trans (a b c : String) (h1 : strLeB a b = true) (h2 : strLeB b c = true) :
    strLeB a c = true := by
  rw [strLeB, strLtB] at h1 h2 ⊢
  rw [Bool.not_eq_true'] at h1 h2 ⊢
  by_cases hca : charListLt c.data a.data = true
  · exfalso
    by_cases hbc : charListLt b.data c.data = true
    · have := charListLt_trans _ _ _ hbc hca
      rw [this] at h1
      simp at h1
    · rw [Bool.not_eq_true] at hbc
      have := charListLt_eq_of_not _ _ hbc h2
      rw [← this] at hca
      rw [hca] at h1
      simp at h1
  · rw [Bool.not_eq_true] at hca
    exact hca

theorem pairwise_insertLe (x : String) :
    ∀ (l : List String), List.Pairwise (fun a b => strLeB a b = true) l →
      List.Pairwise (fun a b => strLeB a b = true) (insertLe strLeB x l) := by
  intro l
  induction l with
  | nil => intro _; simp [insertLe]
  | cons y ys ih =>
    intro h
    rw [List.pairwise_cons] at h
    obtain ⟨hy, hys⟩ := h
    rw [insertLe]
    by_cases hxy : strLeB x y = true
    · rw [if_pos hxy, List.pairwise_cons]
      constructor
      · intro z hz
        rcases List.mem_cons.mp hz with rfl | hz'
        · exact hxy
        · exact strLeB_trans x y z hxy (hy z hz')
      · rw [List.pairwise_cons]
        exact ⟨hy, hys⟩
    · rw [if_neg hxy, List.pairwise_cons]
      constructor
      · intro z hz
        rcases (mem_insertLe strLeB x z ys).mp hz with rfl | hz'
        · rcases strLeB_total z y with h | h
          · exact absurd h hxy
          · exact h
        · exact hy z hz'
      · exact ih hys

theorem sortLe_pairwise : ∀ (l : List String),
    List.Pairwise (fun a b => strLeB a b = true) (sortLe strLeB l) := by
  intro l
  induction l with
  | nil => simp [sortLe]
  | cons x xs ih =>
    rw [sortLe]
    exact pairwise_insertLe x _ ih

theorem pairwise_headD_min : ∀ (l : List String),
    List.Pairwise (fun a b => strLeB a b = true) l →
    ∀ y ∈ l, strLeB (l.headD "") y = true := by
  intro l h y hy
  cases l with
  | nil => simp at hy
  | cons a t =>
    rw [List.pairwise_cons] at h
    rcases List.mem_cons.mp hy with rfl | hy'
    · exact strLeB_refl _
    · exact h.1 y hy'

theorem pyIsDigit_ne_empty (s : String) (h : pyIsDigit s = true) : s ≠ "" := by
  intro he
  rw [he] at h
  exact absurd h (by decide)

theorem promptLoop_cons (running : List String) (line : String) (rest : List String) :
    promptLoop running (line :: rest) =
      (if pyStrip line = "" then PromptResult.selected (running.headD "")
       else if pyStrip line ∈ running then .selected (pyStrip line)
       else if pyIsDigit (pyStrip line) then
         (if strToNat (pyStrip line) < running.length then
            .selected (running.getD (strToNat (pyStrip line)) "")
          else promptLoop running rest)
       else promptLoop running rest) := rfl

theorem prompt_many (running : List String) (inputs : List String)
    (hlen : 2 ≤ running.length) :
    prompt_container_name running inputs = promptLoop running inputs := by
  have h0 : ¬ running = [] := by
    intro he
    rw [he] at hlen
    simp at hlen
  have h1 : ¬ running.length = 1 := by omega
  rw [prompt_container_name, if_neg h0, if_neg h1]

/-- C6: interactive container selection.  With zero running containers
`prompt_container_name` fails with the no-running-containers condition;
with exactly one it returns that name without reading any input; with
more than one, an input line that strips to the empty string selects
the first name of the (lexicographically sorted, see the
`get_running_containers` conjunct) running list, an input stripping to
a running name selects that name, a digit string whose index is in
range selects the name at that index, and any other input re-prompts on
the next line. -/
theorem c6_prompt_selection :
    (∀ inputs, prompt_container_name [] inputs = .noContainers) ∧
    (∀ (x : String) (inputs : List String), prompt_container_name [x] inputs = .selected x) ∧
    (∀ (running : List String) (line : String) (rest : List String), 2 ≤ running.length →
       pyStrip line = "" →
       prompt_container_name running (line :: rest) = .selected (running.headD "")) ∧
    (∀ (psNames : List String), ∀ y ∈ get_running_containers psNames,
       strLeB ((get_running_containers psNames).headD "") y = true) ∧
    (∀ (running : List String) (line : String) (rest : List String), 2 ≤ running.length →
       pyStrip line ≠ "" → pyStrip line ∈ running →
       prompt_container_name running (line :: rest) = .selected (pyStrip line)) ∧
    (∀ (running : List String) (line : String) (rest : List String), 2 ≤ running.length →
       pyStrip line ∉ running → pyIsDigit (pyStrip line) = true →
       strToNat (pyStrip line) < running.length →
       prompt_container_name running (line :: rest) =
         .selected (running.getD (strToNat (pyStrip line)) "")) ∧
    (∀ (running : List String) (line : String) (rest : List String), 2 ≤ running.length →
       pyStrip line ≠ "" → pyStrip line ∉ running →
       (pyIsDigit (pyStrip line) = false ∨ running.length ≤ strToNat (pyStrip line)) →
       prompt_container_name running (line :: rest) = prompt_container_name running rest) := by
  refine ⟨?_, ?_, ?_, ?_, ?_, ?_, ?_⟩
  · intro inputs
    rfl
  · intro x inputs
    rw [prompt_container_name, if_neg (by simp), if_pos (by simp)]
    rfl
  · intro running line rest hlen hstrip
    rw [prompt_many running _ hlen, promptLoop_cons, if_pos hstrip]
  · intro psNames y hy
    exact pairwise_headD_min _ (sortLe_pairwise _) y hy
  · intro running line rest hlen hne hmem
    rw [prompt_many running _ hlen, promptLoop_cons, if_neg hne, if_pos hmem]
  · intro running line rest hlen hmem hdig hrange
    have hne : pyStrip line ≠ "" := pyIsDigit_ne_empty _ hdig
    rw [prompt_many running _ hlen, promptLoop_cons, if_neg hne, if_neg hmem,
        if_pos hdig, if_pos hrange]
  · intro running line rest hlen hne hmem hbad
    rw [prompt_many running _ hlen, promptLoop_cons, if_neg hne, if_neg hmem,
        ← prompt_many running rest hlen]
    rcases hbad with hbad | hbad
    · rw [if_neg (by rw [hbad]; exact Bool.false_ne_true)]
    · by_cases hdig : pyIsDigit (pyStrip line) = true
      · rw [if_pos hdig, if_neg (by omega)]
      · rw [if_neg hdig]

/-- Witness for C6: two running containers and an empty input line
select the lexicographically first name. -/
theorem c6_prompt_selection_witness :
    prompt_container_name ["ccd-demo-01", "ccd-demo-02"] [""] =
      PromptResult.selected "ccd-demo-01" :=
  c6_prompt_selection.2.2.1 ["ccd-demo-01", "ccd-demo-02"] "" [] (by decide) (by rfl)

/-! ## Lemmas and theorems: filesystem preparation and mount flags -/

theorem mkdirAux_cons (fs : Fs) (sofar : FsPath) (c : String) (rest : List String) :
    mkdirAux fs sofar (c :: rest) =
      match fsLookup fs (sofar ++ [c]) with
      | none => mkdirAux ((sofar ++ [c], Entry.dir) :: fs) (sofar ++ [c]) rest
      | some Entry.dir => mkdirAux fs (sofar ++ [c]) rest
      | some (Entry.file _) => .error "FileExistsError" := rfl

theorem mkdirAux_mono : ∀ (l : List String) (fs : Fs) (sofar : FsPath) (fs' : Fs),
    mkdirAux fs sofar l = .ok fs' →
    ∀ (q : FsPath) (e : Entry), fsLookup fs q = some e → fsLookup fs' q = some e := by
  intro l
  induction l with
  | nil =>
    intro fs sofar fs' h q e hq
    rw [mkdirAux] at h
    obtain rfl : fs = fs' := by simpa using h
    exact hq
  | cons c rest ih =>
    intro fs sofar fs' h q e hq
    rw [mkdirAux_cons] at h
    cases hl : fsLookup fs (sofar ++ [c]) with
    | none =>
      rw [hl] at h
      refine ih _ _ _ h q e ?_
      rw [fsLookup]
      rw [if_neg ?_]
      · exact hq
      · intro he
        rw [he, hq] at hl
        exact Option.noConfusion hl
    | some entry =>
      rw [hl] at h
      cases entry with
      | dir => exact ih _ _ _ h q e hq
      | file s => exact Except.noConfusion h

theorem mkdirAux_ensures : ∀ (l : List String) (fs : Fs) (sofar : FsPath) (fs' : Fs),
    mkdirAux fs sofar l = .ok fs' →
    ∀ (l₁ : FsPath) (c : String) (l₂ : FsPath), l = l₁ ++ c :: l₂ →
      fsLookup fs' (sofar ++ l₁ ++ [c]) = some Entry.dir := by
  intro l
  induction l with
  | nil =>
    intro fs sofar fs' h l₁ c l₂ hl
    exact absurd hl (by simp)
  | cons d rest ih =>
    intro fs sofar fs' h l₁ c l₂ hl
    rw [mkdirAux_cons] at h
    cases l₁ with
    | nil =>
      obtain ⟨rfl, rfl⟩ : d = c ∧ rest = l₂ := by
        rw [List.nil_append] at hl
        exact ⟨(List.cons.injEq ..).mp hl |>.1, (List.cons.injEq ..).mp hl |>.2⟩
      have hl2 : sofar ++ ([] : FsPath) ++ [d] = sofar ++ [d] := by simp
      rw [hl2]
      cases hq : fsLookup fs (sofar ++ [d]) with
      | none =>
        rw [hq] at h
        refine mkdirAux_mono _ _ _ _ h _ _ ?_
        rw [fsLookup, if_pos rfl]
      | some entry =>
        rw [hq] at h
        cases entry with
        | dir => exact mkdirAux_mono _ _ _ _ h _ _ hq
        | file s => exact Except.noConfusion h
    | cons e l₁' =>
      obtain ⟨rfl, hrest⟩ : d = e ∧ rest = l₁' ++ c :: l₂ := by
        rw [List.cons_append] at hl
        exact ⟨(List.cons.injEq ..).mp hl |>.1, (List.cons.injEq ..).mp hl |>.2⟩
      have hgoal : sofar ++ (d :: l₁') ++ [c] = (sofar ++ [d]) ++ l₁' ++ [c] := by
        simp
      rw [hgoal]
      cases hq : fsLookup fs (sofar ++ [d]) with
      | none =>
        rw [hq] at h
        exact ih _ _ _ h l₁' c l₂ hrest
      | some entry =>
        rw [hq] at h
        cases entry with
        | dir => exact ih _ _ _ h l₁' c l₂ hrest
        | file s => exact Except.noConfusion h

theorem mkdirAux_noop : ∀ (l : List String) (fs : Fs) (sofar : FsPath),
    (∀ (l₁ : FsPath) (c : String) (l₂ : FsPath), l = l₁ ++ c :: l₂ →
       fsLookup fs (sofar ++ l₁ ++ [c]) = some Entry.dir) →
    mkdirAux fs sofar l = .ok fs := by
  intro l
  induction l with
  | nil => intro fs sofar _; rfl
  | cons d rest ih =>
    intro fs sofar h
    have hd : fsLookup fs (sofar ++ [d]) = some Entry.dir := by
      have := h [] d rest rfl
      simpa using this
    rw [mkdirAux_cons, hd]
    apply ih
    intro l₁ c l₂ hrest
    have := h (d :: l₁) c l₂ (by rw [hrest, List.cons_append])
    have heq : sofar ++ (d :: l₁) ++ [c] = (sofar ++ [d]) ++ l₁ ++ [c] := by simp
    rw [heq] at this
    exact this

theorem touchFile_mono (fs : Fs) (p : FsPath) (fs' : Fs)
    (h : touchFile fs p = .ok fs') :
    ∀ (q : FsPath) (e : Entry), fsLookup fs q = some e → fsLookup fs' q = some e := by
  intro q e hq
  rw [touchFile] at h
  cases hl : fsLookup fs p with
  | some entry =>
    rw [hl] at h
    obtain rfl : fs = fs' := by simpa using h
    exact hq
  | none =>
    rw [hl] at h
    by_cases hp : p.dropLast = [] ∨ fsLookup fs p.dropLast = some Entry.dir
    · rw [if_pos hp] at h
      obtain rfl : ((p, Entry.file "") :: fs : Fs) = fs' := by simpa using h
      rw [fsLookup, if_neg ?_]
      · exact hq
      · intro he
        rw [he, hq] at hl
        exact Option.noConfusion hl
    · rw [if_neg hp] at h
      exact Except.noConfusion h

theorem touchFile_ensures (fs : Fs) (p : FsPath) (fs' : Fs)
    (h : touchFile fs p = .ok fs') : (fsLookup fs' p).isSome = true := by
  rw [touchFile] at h
  cases hl : fsLookup fs p with
  | some entry =>
    rw [hl] at h
    obtain rfl : fs = fs' := by simpa using h
    rw [hl]
    rfl
  | none =>
    rw [hl] at h
    by_cases hp : p.dropLast = [] ∨ fsLookup fs p.dropLast = some Entry.dir
    · rw [if_pos hp] at h
      obtain rfl : ((p, Entry.file "") :: fs : Fs) = fs' := by simpa using h
      rw [fsLookup, if_pos rfl]
      rfl
    · rw [if_neg hp] at h
      exact Except.noConfusion h

theorem touchFile_noop (fs : Fs) (p : FsPath)
    (h : (fsLookup fs p).isSome = true) : touchFile fs p = .ok fs := by
  rw [touchFile]
  cases hl : fsLookup fs p with
  | some entry => rfl
  | none => rw [hl] at h; exact Bool.noConfusion h

theorem prepareDirs_cons (fs : Fs) (spec : PathSpec) (rest : List PathSpec) :
    prepareDirs fs (spec :: rest) =
      (if spec.type = "folder" then
         match mkdirParents fs spec.path with
         | .ok fs' => prepareDirs fs' rest
         | .error e => .error e
       else prepareDirs fs rest) := rfl

theorem prepareDirs_mono : ∀ (specs : List PathSpec) (fs fs' : Fs),
    prepareDirs fs specs = .ok fs' →
    ∀ (q : FsPath) (e : Entry), fsLookup fs q = some e → fsLookup fs' q = some e := by
  intro specs
  induction specs with
  | nil =>
    intro fs fs' h q e hq
    obtain rfl : fs = fs' := by simpa [prepareDirs] using h
    exact hq
  | cons spec rest ih =>
    intro fs fs' h q e hq
    rw [prepareDirs_cons] at h
    by_cases ht : spec.type = "folder"
    · rw [if_pos ht] at h
      cases hm : mkdirParents fs spec.path with
      | ok fs1 =>
        rw [hm] at h
        exact ih _ _ h q e (mkdirAux_mono _ _ _ _ hm q e hq)
      | error e' =>
        rw [hm] at h
        exact Except.noConfusion h
    · rw [if_neg ht] at h
      exact ih _ _ h q e hq

theorem prepareDirs_ensures : ∀ (specs : List PathSpec) (fs fs' : Fs),
    prepareDirs fs specs = .ok fs' →
    ∀ spec ∈ specs, spec.type = "folder" → allPrefixesDir fs' spec.path := by
  intro specs
  induction specs with
  | nil =>
    intro fs fs' h spec hs
    simp at hs
  | cons spec0 rest ih =>
    intro fs fs' h spec hs ht
    rw [prepareDirs_cons] at h
    rcases List.mem_cons.mp hs with rfl | hs'
    · rw [if_pos ht] at h
      cases hm : mkdirParents fs spec.path with
      | ok fs1 =>
        rw [hm] at h
        intro l₁ c l₂ hp
        have h1 : fsLookup fs1 (([] : FsPath) ++ l₁ ++ [c]) = some Entry.dir :=
          mkdirAux_ensures _ _ _ _ hm l₁ c l₂ hp
        have h2 : ([] : FsPath) ++ l₁ ++ [c] = l₁ ++ [c] := by simp
        rw [h2] at h1
        exact prepareDirs_mono _ _ _ h _ _ h1
      | error e' =>
        rw [hm] at h
        exact Except.noConfusion h
    · by_cases ht0 : spec0.type = "folder"
      · rw [if_pos ht0] at h
        cases hm : mkdirParents fs spec0.path with
        | ok fs1 =>
          rw [hm] at h
          exact ih _ _ h spec hs' ht
        | error e' =>
          rw [hm] at h
          exact Except.noConfusion h
      · rw [if_neg ht0] at h
        exact ih _ _ h spec hs' ht

theorem prepareDirs_noop : ∀ (specs : List PathSpec) (fs : Fs),
    (∀ spec ∈ specs, spec.type = "folder" → allPrefixesDir fs spec.path) →
    prepareDirs fs specs = .ok fs := by
  intro specs
  induction specs with
  | nil => intro fs _; rfl
  | cons spec rest ih =>
    intro fs h
    rw [prepareDirs_cons]
    by_cases ht : spec.type = "folder"
    · rw [if_pos ht]
      have hm : mkdirParents fs spec.path = .ok fs := by
        apply mkdirAux_noop
        intro l₁ c l₂ hp
        have h1 := h spec (List.mem_cons_self _ _) ht l₁ c l₂ hp
        have h2 : ([] : FsPath) ++ l₁ ++ [c] = l₁ ++ [c] := by simp
        rw [h2]
        exact h1
      rw [hm]
      exact ih fs (fun s hs => h s (List.mem_cons_of_mem _ hs))
    · rw [if_neg ht]
      exact ih fs (fun s hs => h s (List.mem_cons_of_mem _ hs))

theorem prepareFiles_cons (fs : Fs) (spec : PathSpec) (rest : List PathSpec) :
    prepareFiles fs (spec :: rest) =
      (if spec.type = "file" then
         match touchFile fs spec.path with
         | .ok fs' => prepareFiles fs' rest
         | .error e => .error e
       else prepareFiles fs rest) := rfl

theorem prepareFiles_mono : ∀ (specs : List PathSpec) (fs fs' : Fs),
    prepareFiles fs specs = .ok fs' →
    ∀ (q : FsPath) (e : Entry), fsLookup fs q = some e → fsLookup fs' q = some e := by
  intro specs
  induction specs with
  | nil =>
    intro fs fs' h q e hq
    obtain rfl : fs = fs' := by simpa [prepareFiles] using h
    exact hq
  | cons spec rest ih =>
    intro fs fs' h q e hq
    rw [prepareFiles_cons] at h
    by_cases ht : spec.type = "file"
    · rw [if_pos ht] at h
      cases hm : touchFile fs spec.path with
      | ok fs1 =>
        rw [hm] at h
        exact ih _ _ h q e (touchFile_mono _ _ _ hm q e hq)
      | error e' =>
        rw [hm] at h
        exact Except.noConfusion h
    · rw [if_neg ht] at h
      exact ih _ _ h q e hq

theorem fsLookup_isSome_mono (fs fs' : Fs)
    (hmono : ∀ (q : FsPath) (e : Entry), fsLookup fs q = some e → fsLookup fs' q = some e)
    (p : FsPath) (h : (fsLookup fs p).isSome = true) : (fsLookup fs' p).isSome = true := by
  cases hl : fsLookup fs p with
  | none => rw [hl] at h; exact Bool.noConfusion h
  | some e => rw [hmono p e hl]; rfl

theorem prepareFiles_ensures : ∀ (specs : List PathSpec) (fs fs' : Fs),
    prepareFiles fs specs = .ok fs' →
    ∀ spec ∈ specs, spec.type = "file" → (fsLookup fs' spec.path).isSome = true := by
  intro specs
  induction specs with
  | nil =>
    intro fs fs' h spec hs
    simp at hs
  | cons spec0 rest ih =>
    intro fs fs' h spec hs ht
    rw [prepareFiles_cons] at h
    rcases List.mem_cons.mp hs with rfl | hs'
    · rw [if_pos ht] at h
      cases hm : touchFile fs spec.path with
      | ok fs1 =>
        rw [hm] at h
        exact fsLookup_isSome_mono fs1 fs' (prepareFiles_mono _ _ _ h) _
          (touchFile_ensures _ _ _ hm)
      | error e' =>
        rw [hm] at h
        exact Except.noConfusion h
    · by_cases ht0 : spec0.type = "file"
      · rw [if_pos ht0] at h
        cases hm : touchFile fs spec0.path with
        | ok fs1 =>
          rw [hm] at h
          exact ih _ _ h spec hs' ht
        | error e' =>
          rw [hm] at h
          exact Except.noConfusion h
      · rw [if_neg ht0] at h
        exact ih _ _ h spec hs' ht

theorem prepareFiles_noop : ∀ (specs : List PathSpec) (fs : Fs),
    (∀ spec ∈ specs, spec.type = "file" → (fsLookup fs spec.path).isSome = true) →
    prepareFiles fs specs = .ok fs := by
  intro specs
  induction specs with
  | nil => intro fs _; rfl
  | cons spec rest ih =>
    intro fs h
    rw [prepareFiles_cons]
    by_cases ht : spec.type = "file"
    · rw [if_pos ht, touchFile_noop fs spec.path (h spec (List.mem_cons_self _ _) ht)]
      exact ih fs (fun s hs => h s (List.mem_cons_of_mem _ hs))
    · rw [if_neg ht]
      exact ih fs (fun s hs => h s (List.mem_cons_of_mem _ hs))

theorem prepare_paths_split (specs : List PathSpec) (fs fs' : Fs)
    (h : prepare_paths specs fs = .ok fs') :
    ∃ fs1, prepareDirs fs specs = .ok fs1 ∧ prepareFiles fs1 specs = .ok fs' := by
  rw [prepare_paths] at h
  cases hd : prepareDirs fs specs with
  | ok fs1 =>
    rw [hd] at h
    exact ⟨fs1, rfl, h⟩
  | error e =>
    rw [hd] at h
    exact Except.noConfusion h

theorem prepare_paths_state (specs : List PathSpec) (fs fs' : Fs)
    (h : prepare_paths specs fs = .ok fs') :
    (∀ (q : FsPath) (e : Entry), fsLookup fs q = some e → fsLookup fs' q = some e) ∧
    (∀ spec ∈ specs, spec.type = "folder" → allPrefixesDir fs' spec.path) ∧
    (∀ spec ∈ specs, spec.type = "file" → (fsLookup fs' spec.path).isSome = true) := by
  obtain ⟨fs1, hd, hf⟩ := prepare_paths_split specs fs fs' h
  refine ⟨?_, ?_, prepareFiles_ensures _ _ _ hf⟩
  · intro q e hq
    exact prepareFiles_mono _ _ _ hf q e (prepareDirs_mono _ _ _ hd q e hq)
  · intro spec hs ht
    intro l₁ c l₂ hp
    exact prepareFiles_mono _ _ _ hf _ _
      (prepareDirs_ensures _ _ _ hd spec hs ht l₁ c l₂ hp)

theorem prepare_paths_idem (specs : List PathSpec) (fs fs' : Fs)
    (h : prepare_paths specs fs = .ok fs') :
    prepare_paths specs fs' = .ok fs' := by
  obtain ⟨_, hdirs, hfiles⟩ := prepare_paths_state specs fs fs' h
  rw [prepare_paths, prepareDirs_noop specs fs' hdirs]
  exact prepareFiles_noop specs fs' hfiles

/-- C7: preparing a PathSpec list creates directory-kind paths first
(with parents) and file-kind paths second; on success every
directory-kind path is bound to a directory and every file-kind path
exists; pre-existing file contents are never touched; and preparation
is idempotent — running it again on the resulting filesystem succeeds
and changes nothing. -/
theorem c7_prepare_paths_idempotent :
    ∀ (specs : List PathSpec) (fs fs' : Fs), prepare_paths specs fs = .ok fs' →
      prepare_paths specs fs' = .ok fs' ∧
      (∀ (p : FsPath) (content : String), fsLookup fs p = some (Entry.file content) →
         fsLookup fs' p = some (Entry.file content)) ∧
      (∀ spec ∈ specs, spec.type = "folder" → spec.path ≠ [] →
         fsLookup fs' spec.path = some Entry.dir) ∧
      (∀ spec ∈ specs, spec.type = "file" → (fsLookup fs' spec.path).isSome = true) := by
  intro specs fs fs' h
  obtain ⟨hmono, hdirs, hfiles⟩ := prepare_paths_state specs fs fs' h
  refine ⟨prepare_paths_idem specs fs fs' h, fun p content hp => hmono p _ hp, ?_, hfiles⟩
  intro spec hs ht hne
  rcases spec.path.eq_nil_or_concat with he | ⟨l₁, c, hc⟩
  · exact absurd he hne
  · have h1 : fsLookup fs' (l₁ ++ [c]) = some Entry.dir := by
      apply hdirs spec hs ht l₁ c []
      rw [hc, List.concat_eq_append]
    rw [hc, List.concat_eq_append]
    exact h1

/-- Witness for C7: preparing the six run-command mount sources from
an empty filesystem and preparing again is a no-op. -/
theorem c7_prepare_paths_idempotent_witness :
    prepare_paths demoSpecs demoPreparedFs = .ok demoPreparedFs :=
  (c7_prepare_paths_idempotent demoSpecs [] demoPreparedFs (by rfl)).1

theorem prepare_folder_dir (specs : List PathSpec) (fs fs' : Fs)
    (h : prepare_paths specs fs = .ok fs') (spec : PathSpec) (hs : spec ∈ specs)
    (ht : spec.type = "folder") (hne : spec.path ≠ []) :
    fsLookup fs' spec.path = some Entry.dir := by
  obtain ⟨_, hdirs, _⟩ := prepare_paths_state specs fs fs' h
  rcases spec.path.eq_nil_or_concat with he | ⟨l₁, c, hc⟩
  · exact absurd he hne
  · have h1 : fsLookup fs' (l₁ ++ [c]) = some Entry.dir := by
      apply hdirs spec hs ht l₁ c []
      rw [hc, List.concat_eq_append]
    rw [hc, List.concat_eq_append]
    exact h1

/-- C3: for every run invocation whose path preparation succeeds, the
rendered mount flags contain exactly six source-to-target path
mappings, in the fixed order: the app folder to `/app`, then the
`.claude` directory, the `.claude.json` file, the `.gemini`, `.codex`
and `.copilot` directories, each mapped to the same-named entry under
the fixed container-side home path. -/
theorem c3_run_mount_flags :
    ∀ (app home : FsPath) (fs fs' : Fs), app ≠ [] →
      prepare_paths (runPathSpecs app home) fs = .ok fs' →
      get_volume_commands fs' (runPathSpecs app home) = .ok
        ["-v", renderPath app ++ ":" ++ "/app",
         "-v", renderPath (home ++ [".claude"]) ++ ":" ++ (IMAGE_HOME_FOLDER ++ "/.claude"),
         "-v", renderPath (home ++ [".claude.json"]) ++ ":" ++ (IMAGE_HOME_FOLDER ++ "/.claude.json"),
         "-v", renderPath (home ++ [".gemini"]) ++ ":" ++ (IMAGE_HOME_FOLDER ++ "/.gemini"),
         "-v", renderPath (home ++ [".codex"]) ++ ":" ++ (IMAGE_HOME_FOLDER ++ "/.codex"),
         "-v", renderPath (home ++ [".copilot"]) ++ ":" ++ (IMAGE_HOME_FOLDER ++ "/.copilot")] := by
  intro app home fs fs' hne h
  have hfiles := (prepare_paths_state _ _ _ h).2.2
  have happ : (fsLookup fs' app).isSome = true := by
    rw [prepare_folder_dir _ _ _ h ⟨app, "/app", "folder"⟩
      (by rw [runPathSpecs]; exact List.mem_cons_self _ _) rfl hne]
    rfl
  have hclaude : (fsLookup fs' (home ++ [".claude"])).isSome = true := by
    rw [prepare_folder_dir _ _ _ h ⟨home ++ [".claude"], IMAGE_HOME_FOLDER ++ "/.claude", "folder"⟩
      (by simp [runPathSpecs]) rfl (by simp)]
    rfl
  have hjson : (fsLookup fs' (home ++ [".claude.json"])).isSome = true :=
    hfiles ⟨home ++ [".claude.json"], IMAGE_HOME_FOLDER ++ "/.claude.json", "file"⟩
      (by simp [runPathSpecs]) rfl
  have hgemini : (fsLookup fs' (home ++ [".gemini"])).isSome = true := by
    rw [prepare_folder_dir _ _ _ h ⟨home ++ [".gemini"], IMAGE_HOME_FOLDER ++ "/.gemini", "folder"⟩
      (by simp [runPathSpecs]) rfl (by simp)]
    rfl
  have hcodex : (fsLookup fs' (home ++ [".codex"])).isSome = true := by
    rw [prepare_folder_dir _ _ _ h ⟨home ++ [".codex"], IMAGE_HOME_FOLDER ++ "/.codex", "folder"⟩
      (by simp [runPathSpecs]) rfl (by simp)]
    rfl
  have hcopilot : (fsLookup fs' (home ++ [".copilot"])).isSome = true := by
    rw [prepare_folder_dir _ _ _ h ⟨home ++ [".copilot"], IMAGE_HOME_FOLDER ++ "/.copilot", "folder"⟩
      (by simp [runPathSpecs]) rfl (by simp)]
    rfl
  rw [runPathSpecs]
  simp only [get_volume_commands, happ, hclaude, hjson, hgemini, hcodex, hcopilot, if_true]


/-- Witness for C3 at app folder `/work`, home folder `/h`, empty
initial filesystem. -/
theorem c3_run_mount_flags_witness :
    get_volume_commands demoPreparedFs (runPathSpecs ["work"] ["h"]) = .ok
      ["-v", renderPath ["work"] ++ ":" ++ "/app",
       "-v", renderPath (["h"] ++ [".claude"]) ++ ":" ++ (IMAGE_HOME_FOLDER ++ "/.claude"),
       "-v", renderPath (["h"] ++ [".claude.json"]) ++ ":" ++ (IMAGE_HOME_FOLDER ++ "/.claude.json"),
       "-v", renderPath (["h"] ++ [".gemini"]) ++ ":" ++ (IMAGE_HOME_FOLDER ++ "/.gemini"),
       "-v", renderPath (["h"] ++ [".codex"]) ++ ":" ++ (IMAGE_HOME_FOLDER ++ "/.codex"),
       "-v", renderPath (["h"] ++ [".copilot"]) ++ ":" ++ (IMAGE_HOME_FOLDER ++ "/.copilot")] :=
  c3_run_mount_flags ["work"] ["h"] [] demoPreparedFs (by simp) (by rfl)

/-- Witness for C1: the empty-project case at a concrete running list. -/
theorem c1_next_free_name_witness :
    get_next_free_container_name ["ccd-bar-01"] "foo" = some "ccd-foo-01" :=
  c1_next_free_name.2.2.1

/-- Witness for C2 (amended) at concrete child exit status 8. -/
theorem c2_nonzero_exit_fatal_witness :
    main_build_exit (ChildBehavior.exits 8) = 1 ∧ main_run_exit (ChildBehavior.exits 8) = 1 :=
  ⟨(c2_nonzero_exit_fatal 7).2.2.1, (c2_nonzero_exit_fatal 7).2.2.2.1⟩

/-- Witness for C9 (amended) at concrete session exit status 3. -/
theorem c9_run_interrupt_clean_witness :
    main_run_exit ChildBehavior.interrupt = 0 ∧ main_attach_exit (ChildBehavior.exits 3) = 0 :=
  ⟨(c9_run_interrupt_clean 0).2.1, (c9_run_interrupt_clean 2).2.2.2.2.2⟩

/-- Witness for C10 at a concrete running list and project name. -/
theorem c10_next_free_terminates_witness :
    ∃ name, get_next_free_container_name ["ccd-x-01"] "x" = some name ∧
      name ∉ ["ccd-x-01"] :=
  c10_next_free_terminates ["ccd-x-01"] "x"
